import Mathlib

/-!
Verification of `log4mongo/handlers.py` (MongoFormatter, MongoHandler,
BufferedMongoHandler) against its natural-language specification.

The Python source is shallowly embedded: dictionaries become association
lists with first-key lookup and in-place overwrite, the pymongo collection
becomes an abstract storage oracle that says which inserts fail, and the
stateful handler methods become pure state-passing functions whose outputs
also record the diagnostic reports emitted and any Python exception that
escaped.
-/

namespace Log4Mongo

/-- A BSON/Python value stored in a log document.  `time` models the
`datetime.datetime` timestamp (as an abstract instant), `exc` models the
nested exception dictionary literal `{'message': ..., 'code': ..., 'stackTrace': ...}`
that `MongoFormatter.format` builds, and `str`/`int` cover the remaining
field values the formatter produces. -/
inductive Value where
  | str (s : String)
  | int (n : Int)
  | time (t : Nat)
  | exc (message : String) (code : Int) (stackTrace : String)
  deriving DecidableEq, Repr

/-- A Python dict as used for log documents: an association list whose keys
are unique (Python dicts cannot hold a key twice). -/
abbrev Doc := List (String × Value)

/-- `d[k]` lookup returning `none` when the key is absent (a Python
`KeyError`). -/
def Doc.get? : Doc → String → Option Value
  | [], _ => none
  | (k', v) :: rest, k => if k' = k then some v else Doc.get? rest k

/-- `d[k] = v` assignment: overwrite the existing entry for `k` in place, or
append a new entry, exactly as a Python dict does. -/
def Doc.insert : Doc → String → Value → Doc
  | [], k, v => [(k, v)]
  | (k', v') :: rest, k, v =>
    if k' = k then (k, v) :: rest else (k', v') :: Doc.insert rest k v

/-- The keys of the document, in insertion order. -/
def Doc.keys (d : Doc) : List String := d.map Prod.fst

/-- `MongoFormatter.DEFAULT_PROPERTIES`: the attribute names of a bare
`logging.LogRecord('', '', '', '', '', '', '', '')` (CPython 3.8-3.11).
Note it contains the record attribute names (`levelname`, `pathname`,
`funcName`, ...), not the document key names the formatter emits
(`level`, `fileName`, `method`, ...). -/
def DEFAULT_PROPERTIES : List String :=
  ["name", "msg", "args", "levelname", "levelno", "pathname", "filename",
   "module", "exc_info", "exc_text", "stack_info", "lineno", "funcName",
   "created", "msecs", "relativeCreated", "thread", "threadName",
   "processName", "process"]

/-- The exception information attached to a record (`record.exc_info`):
`message` models `str(record.exc_info[1])` and `stackTrace` models
`self.formatException(record.exc_info)`. -/
structure ExcInfo where
  message : String
  stackTrace : String
  deriving DecidableEq, Repr

/-- A `logging.LogRecord` as seen by `MongoFormatter.format`.  Only the
attributes the formatter reads are carried as fields; `message` models the
result of `record.getMessage()` (percent-formatting of `msg` with `args` is
the logging framework's job and out of scope per the spec).  `extras` holds
the entries of `record.__dict__` whose keys are not standard attribute
names, i.e. the caller-supplied `extra={...}` attributes; the full
`record.__dict__` is therefore the standard attributes (whose key set is
`DEFAULT_PROPERTIES`) together with `extras`. -/
structure LogRecord where
  name : String
  levelname : String
  levelno : Nat
  pathname : String
  module : String
  funcName : String
  lineno : Int
  thread : Int
  threadName : String
  message : String
  exc_info : Option ExcInfo
  extras : List (String × Value)
  deriving Repr

/-- `record.getMessage()`. -/
def LogRecord.getMessage (r : LogRecord) : String := r.message

/-- `len(record.__dict__)`: the standard attributes plus the extras (an
extra key that coincided with a standard attribute name would simply be that
attribute, so the two groups are disjoint). -/
def LogRecord.dictLen (r : LogRecord) : Nat :=
  DEFAULT_PROPERTIES.length + r.extras.length

/-- Well-formedness of the `extras` field as an image of `record.__dict__`:
keys occur at most once (dicts) and no extra key is a standard attribute
name (those entries would be the standard attributes themselves). -/
def LogRecord.WF (r : LogRecord) : Prop :=
  (r.extras.map Prod.fst).Nodup ∧
    ∀ kv ∈ r.extras, DEFAULT_PROPERTIES.contains kv.1 = false

instance (r : LogRecord) : Decidable r.WF := by
  unfold LogRecord.WF; infer_instance

/-- The `# Standard document` dict literal of `MongoFormatter.format`;
`now` is the instant `dt.datetime.utcnow()` returns during this call. -/
def standardDocument (now : Nat) (record : LogRecord) : Doc :=
  [("timestamp", Value.time now),
   ("level", Value.str record.levelname),
   ("thread", Value.int record.thread),
   ("threadName", Value.str record.threadName),
   ("message", Value.str record.getMessage),
   ("loggerName", Value.str record.name),
   ("fileName", Value.str record.pathname),
   ("module", Value.str record.module),
   ("method", Value.str record.funcName),
   ("lineNumber", Value.int record.lineno)]

/-- `format`, step 2: `if record.exc_info is not None: document.update({'exception': ...})`. -/
def withException (record : LogRecord) (document : Doc) : Doc :=
  match record.exc_info with
  | some info =>
      document.insert "exception" (Value.exc info.message 0 info.stackTrace)
  | none => document

/-- `format`, step 3: when `len(DEFAULT_PROPERTIES) != len(record.__dict__)`,
copy every `record.__dict__` entry whose key is not in `DEFAULT_PROPERTIES`
into the document (`document[key] = record.__dict__[key]`).  Such entries
are exactly the `extras` whose key is outside `DEFAULT_PROPERTIES`; the
source's inner `if contextual_extra:` guard is the no-op on an empty
iteration and needs no separate branch. -/
def withExtras (record : LogRecord) (document : Doc) : Doc :=
  if DEFAULT_PROPERTIES.length ≠ record.dictLen then
    (record.extras.filter fun kv => !(DEFAULT_PROPERTIES.contains kv.1)).foldl
      (fun d kv => d.insert kv.1 kv.2) document
  else document

/-- `MongoFormatter.format(record)`: the standard document, decorated with
exception info, decorated with the contextual extras. -/
def MongoFormatter.format (now : Nat) (record : LogRecord) : Doc :=
  withExtras record (withException record (standardDocument now record))

/-- The storage collaborator (the pymongo collection's behaviour): which
bulk `insert_many` calls raise and which single `insert_one` calls raise.
The handler code only distinguishes success from a raised exception. -/
structure Storage where
  insertManyFails : List Doc → Bool
  insertOneFails : Doc → Bool

/-- A Python exception escaping a handler method.  `keyError k` models
`KeyError(k)` from a dict subscript on a missing key. -/
inductive PyExn where
  | keyError (key : String)
  deriving DecidableEq, Repr

/-- The mutable state of a `BufferedMongoHandler`: the bound collection
(`none` after a silent-fail connection), the buffer of formatted documents,
the construction-time configuration, and the timer/close flags touched by
`destroy`.  `timer_configured` is the truthiness of `self._timer_stopper`;
`timer_stopped` is whether the stop `Event` has been set (`Event.set` is
idempotent). -/
structure BState where
  collection : Option Unit
  buffer : List Doc
  buffer_size : Nat
  buffer_early_flush_level : Nat
  last_record : Option LogRecord
  timer_configured : Bool
  timer_stopped : Bool
  closed : Bool

/-- Outcome of the per-document fallback loop inside `flush_to_mongo`'s
`except` branch: the documents on which `insert_one` was attempted, those
actually written, the documents whose failure was reported by the `print`,
and the exception (if any) that escaped the loop. -/
structure FallbackRes where
  attempted : List Doc
  written : List Doc
  reported : List Doc
  raised : Option PyExn
  deriving Repr

/-- The `for msg in self.buffer` fallback of `flush_to_mongo`: try
`insert_one(msg)`; on failure evaluate `msg['levelname'] != 'DEBUG'` to
decide whether to print the diagnostic.  A document without a `'levelname'`
key makes that subscript raise `KeyError`, which the `except` clause does
not cover, so the loop aborts and the exception propagates. -/
def fallbackLoop (st : Storage) : List Doc → FallbackRes
  | [] => ⟨[], [], [], none⟩
  | msg :: rest =>
    if st.insertOneFails msg then
      match Doc.get? msg "levelname" with
      | none => ⟨[msg], [], [], some (PyExn.keyError "levelname")⟩
      | some v =>
        let r := fallbackLoop st rest
        if v ≠ Value.str "DEBUG" then
          ⟨msg :: r.attempted, r.written, msg :: r.reported, r.raised⟩
        else
          ⟨msg :: r.attempted, r.written, r.reported, r.raised⟩
    else
      let r := fallbackLoop st rest
      ⟨msg :: r.attempted, msg :: r.written, r.reported, r.raised⟩

/-- Outcome of one handler method call: the state afterwards, the documents
written to storage, the documents whose per-item failure was reported, and
the exception (if any) that propagated to the caller. -/
structure FlushOut where
  state : BState
  written : List Doc
  reported : List Doc
  raised : Option PyExn

/-- `BufferedMongoHandler.flush_to_mongo`: under the buffer lock, if a
collection is bound and the buffer is non-empty, try `insert_many` on the
whole buffer; on failure fall back to `fallbackLoop`; then
`empty_buffer()` replaces the buffer with `[]` — unless an exception
escaped the fallback loop, in which case `empty_buffer` is never reached
and the buffer keeps its contents. -/
def flush_to_mongo (st : Storage) (s : BState) : FlushOut :=
  if s.collection.isSome ∧ 0 < s.buffer.length then
    if st.insertManyFails s.buffer then
      let r := fallbackLoop st s.buffer
      match r.raised with
      | some e => ⟨s, r.written, r.reported, some e⟩
      | none => ⟨{ s with buffer := [] }, r.written, r.reported, none⟩
    else
      ⟨{ s with buffer := [] }, s.buffer, [], none⟩
  else
    ⟨s, [], [], none⟩

/-- Outcome of `BufferedMongoHandler.emit`, additionally counting how many
times `flush_to_mongo` was invoked during the call (0 or 1). -/
structure EmitOut where
  state : BState
  flushes : Nat
  written : List Doc
  reported : List Doc
  raised : Option PyExn

/-- `BufferedMongoHandler.emit(record)`: under the lock, remember the record
as `last_record` and append its formatted document; then, when the buffer
has reached `buffer_size` or the record's level is at least
`buffer_early_flush_level`, call `flush_to_mongo` (whose exception, if any,
propagates out of `emit`). -/
def BufferedMongoHandler.emit (st : Storage) (s : BState) (now : Nat)
    (record : LogRecord) : EmitOut :=
  let s1 := { s with
    buffer := s.buffer ++ [MongoFormatter.format now record],
    last_record := some record }
  if s1.buffer.length ≥ s1.buffer_size ∨
      record.levelno ≥ s1.buffer_early_flush_level then
    let f := flush_to_mongo st s1
    ⟨f.state, 1, f.written, f.reported, f.raised⟩
  else
    ⟨s1, 0, [], [], none⟩

/-- A sequence of `emit` calls from one thread (no timer interleaving),
accumulating flush invocations, writes and reports; an exception from one
`emit` propagates to the emitting caller, so later emits of the sequence do
not happen. -/
def emitSeq (st : Storage) (s : BState) (now : Nat) :
    List LogRecord → EmitOut
  | [] => ⟨s, 0, [], [], none⟩
  | r :: rs =>
    let e := BufferedMongoHandler.emit st s now r
    match e.raised with
    | some ex => ⟨e.state, e.flushes, e.written, e.reported, some ex⟩
    | none =>
      let rest := emitSeq st e.state now rs
      ⟨rest.state, e.flushes + rest.flushes, e.written ++ rest.written,
        e.reported ++ rest.reported, rest.raised⟩

/-- `BufferedMongoHandler.destroy`: call the timer stopper if one was
configured (setting the stop event, idempotently), flush the buffer, then
`close()` the connection (closing an already-closed pymongo client is a
no-op, so `closed := true` raises nothing).  An exception escaping the
flush propagates and skips the close. -/
def BufferedMongoHandler.destroy (st : Storage) (s : BState) : FlushOut :=
  let s1 := if s.timer_configured then { s with timer_stopped := true } else s
  let f := flush_to_mongo st s1
  match f.raised with
  | some e => ⟨f.state, f.written, f.reported, some e⟩
  | none => ⟨{ f.state with closed := true }, f.written, f.reported, none⟩

/-- The unbuffered `MongoHandler`'s relevant state. -/
structure MState where
  collection : Option Unit
  fail_silently : Bool

/-- Outcome of `MongoHandler.emit`: documents written, whether
`self.handleError(record)` was invoked (the logging framework's diagnostic
channel, which never raises), and the exception (if any) propagating to the
caller. -/
structure MEmitOut where
  written : List Doc
  errorReported : Bool
  raised : Option PyExn

/-- `MongoHandler.emit(record)`: if a collection is bound, try
`insert_one(format(record))`; any exception is caught, and reported via
`handleError` unless `fail_silently` is set. -/
def MongoHandler.emit (st : Storage) (s : MState) (now : Nat)
    (record : LogRecord) : MEmitOut :=
  match s.collection with
  | none => ⟨[], false, none⟩
  | some _ =>
    let doc := MongoFormatter.format now record
    if st.insertOneFails doc then ⟨[], !s.fail_silently, none⟩
    else ⟨[doc], false, none⟩

/-! ### Concrete fixtures used to evaluate the model -/

/-- An ordinary ERROR-level record with no exception and no extras. -/
def cRecError : LogRecord :=
  { name := "testLogger", levelname := "ERROR", levelno := 40,
    pathname := "/app/main.py", module := "main", funcName := "run",
    lineno := 10, thread := 1, threadName := "MainThread",
    message := "boom", exc_info := none, extras := [] }

/-- An INFO-level record carrying a caller-supplied extra attribute named
`level` (the logging framework accepts it: `level` is not a record
attribute name). -/
def cRecLevel : LogRecord :=
  { cRecError with
    levelname := "INFO", levelno := 20,
    extras := [("level", Value.str "HACKED")] }

/-- A record with exception info attached and a caller-supplied extra
attribute named `exception`. -/
def cRecExc : LogRecord :=
  { cRecError with
    exc_info := some ⟨"exc1", "tb"⟩,
    extras := [("exception", Value.str "shadow")] }

/-- Storage on which every insert raises. -/
def failStorage : Storage := ⟨fun _ => true, fun _ => true⟩

/-- Storage on which every insert succeeds. -/
def okStorage : Storage := ⟨fun _ => false, fun _ => false⟩

/-- A buffered-handler state with a bound collection and one buffered
ERROR document. -/
def sOneBuffered : BState :=
  { collection := some (), buffer := [MongoFormatter.format 0 cRecError],
    buffer_size := 100, buffer_early_flush_level := 50, last_record := none,
    timer_configured := true, timer_stopped := false, closed := false }

/-- A buffered-handler state with a bound collection, an empty buffer and
capacity 1. -/
def sCapOne : BState := { sOneBuffered with buffer := [], buffer_size := 1 }

/-! ### Dictionary lemmas -/

theorem Doc.get?_insert_self (d : Doc) (k : String) (v : Value) :
    (d.insert k v).get? k = some v := by
  induction d with
  | nil => simp [Doc.insert, Doc.get?]
  | cons kv rest ih =>
    by_cases h : kv.1 = k
    · simp [Doc.insert, h, Doc.get?]
    · simp [Doc.insert, h, Doc.get?, ih]

theorem Doc.get?_insert_ne (d : Doc) (k0 k : String) (v : Value)
    (h : k0 ≠ k) : (d.insert k0 v).get? k = d.get? k := by
  induction d with
  | nil => simp [Doc.insert, Doc.get?, h]
  | cons kv rest ih =>
    by_cases h' : kv.1 = k0
    · simp [Doc.insert, h', Doc.get?, h]
    · simp [Doc.insert, h', Doc.get?, ih]

theorem Doc.get?_foldl_insert_not_mem (l : List (String × Value)) (d : Doc)
    (k : String) (h : k ∉ l.map Prod.fst) :
    (l.foldl (fun d kv => d.insert kv.1 kv.2) d).get? k = d.get? k := by
  induction l generalizing d with
  | nil => rfl
  | cons kv rest ih =>
    simp only [List.map_cons, List.mem_cons, not_or] at h
    rw [List.foldl_cons, ih _ h.2, Doc.get?_insert_ne _ _ _ _ (Ne.symm h.1)]

theorem Doc.get?_foldl_insert_mem (l : List (String × Value)) (d : Doc)
    (k : String) (v : Value) (hnd : (l.map Prod.fst).Nodup)
    (hm : (k, v) ∈ l) :
    (l.foldl (fun d kv => d.insert kv.1 kv.2) d).get? k = some v := by
  induction l generalizing d with
  | nil => cases hm
  | cons kv rest ih =>
    simp only [List.map_cons, List.nodup_cons] at hnd
    rcases List.mem_cons.mp hm with heq | hmem
    · subst heq
      rw [List.foldl_cons,
        Doc.get?_foldl_insert_not_mem _ _ _ hnd.1,
        Doc.get?_insert_self]
    · rw [List.foldl_cons]
      exact ih _ hnd.2 hmem

/-! ### Record Formatter claims -/

/-- A record with exception info attached and no extras. -/
def cRecWithExc : LogRecord :=
  { cRecError with exc_info := some ⟨"exc1", "tb"⟩ }

/-- C5: for every record with no associated exception and no extra
attributes, `format` returns a document whose key set is exactly
{timestamp, level, thread, threadName, message, loggerName, fileName,
module, method, lineNumber}, no more, no less (stated in the document's
insertion order, which also shows each key occurs exactly once). -/
theorem format_plain_record_key_set (now : Nat) (r : LogRecord)
    (hexc : r.exc_info = none) (hext : r.extras = []) :
    (MongoFormatter.format now r).keys =
      ["timestamp", "level", "thread", "threadName", "message",
       "loggerName", "fileName", "module", "method", "lineNumber"] := by
  simp [MongoFormatter.format, withExtras, withException, hexc, hext,
    LogRecord.dictLen, standardDocument, Doc.keys]

/-- Witness for C5 at the concrete record `cRecError`. -/
theorem format_plain_record_key_set_witness :
    cRecError.exc_info = none ∧ cRecError.extras = [] ∧
    (MongoFormatter.format 0 cRecError).keys =
      ["timestamp", "level", "thread", "threadName", "message",
       "loggerName", "fileName", "module", "method", "lineNumber"] :=
  ⟨rfl, rfl, format_plain_record_key_set 0 cRecError rfl rfl⟩

/-- Counterexample to C4 as stated: `cRecLevel` is a well-formed record
(its extra key `level` is not a standard record attribute, so the logging
framework accepts it), yet the extra overwrites the standard document key
`level`: the document's `level` is the extra's value `"HACKED"`, not the
record's levelname `"INFO"`. -/
theorem format_extra_overwrites_level :
    cRecLevel.WF ∧ cRecLevel.levelname = "INFO" ∧
    Doc.get? (MongoFormatter.format 0 cRecLevel) "level" =
      some (Value.str "HACKED") :=
  ⟨by decide, rfl, rfl⟩

/-- C4 (amended): for every well-formed record, each extra attribute
appears in the document under its own name with its original value.  An
extra can never be named after a standard record attribute (those names
are excluded from the extras by construction), but — as the statement
itself entails when the extra's name is a document key such as `level` or
`timestamp` — the extra's value does replace the standard document entry
of that name. -/
theorem format_extras_kept_with_original_value (now : Nat) (r : LogRecord)
    (hwf : r.WF) :
    ∀ k v, (k, v) ∈ r.extras →
      Doc.get? (MongoFormatter.format now r) k = some v := by
  intro k v hm
  unfold MongoFormatter.format withExtras
  have hne : r.extras ≠ [] := by
    intro h; rw [h] at hm; cases hm
  have hcond : DEFAULT_PROPERTIES.length ≠ r.dictLen := by
    unfold LogRecord.dictLen
    have : 0 < r.extras.length := List.length_pos.mpr hne
    omega
  rw [if_pos hcond]
  have hfilter :
      (r.extras.filter fun kv => !(DEFAULT_PROPERTIES.contains kv.1)) =
        r.extras :=
    List.filter_eq_self.mpr fun kv hkv => by
      rw [Bool.not_eq_true']
      exact hwf.2 kv hkv
  rw [hfilter]
  exact Doc.get?_foldl_insert_mem _ _ _ _ hwf.1 hm

/-- Witness for amended C4 at the concrete record `cRecLevel` and its
extra `("level", "HACKED")`. -/
theorem format_extras_kept_witness :
    cRecLevel.WF ∧ ("level", Value.str "HACKED") ∈ cRecLevel.extras ∧
    Doc.get? (MongoFormatter.format 0 cRecLevel) "level" =
      some (Value.str "HACKED") :=
  ⟨by decide, by decide,
    format_extras_kept_with_original_value 0 cRecLevel (by decide)
      "level" (Value.str "HACKED") (by decide)⟩

/-- Counterexample to C6 as stated: `cRecExc` has a non-null exception,
yet its document's `exception` entry is the caller-supplied extra string
`"shadow"`, not a nested exception object with the exception's message and
code 0. -/
theorem format_extra_shadows_exception :
    cRecExc.WF ∧ cRecExc.exc_info = some ⟨"exc1", "tb"⟩ ∧
    Doc.get? (MongoFormatter.format 0 cRecExc) "exception" =
      some (Value.str "shadow") ∧
    Value.str "shadow" ≠ Value.exc "exc1" 0 "tb" :=
  ⟨by decide, rfl, rfl, by decide⟩

/-- C6 (amended): for every record with a non-null associated exception
and no extra attribute named `exception`, the formatted document contains
under `exception` a nested exception object whose `message` equals the
string form of the exception value and whose `code` equals 0. -/
theorem format_exception_object (now : Nat) (r : LogRecord) (e : ExcInfo)
    (hexc : r.exc_info = some e)
    (hne : "exception" ∉ r.extras.map Prod.fst) :
    Doc.get? (MongoFormatter.format now r) "exception" =
      some (Value.exc e.message 0 e.stackTrace) := by
  unfold MongoFormatter.format withExtras
  have hstep :
      Doc.get? (withException r (standardDocument now r)) "exception" =
        some (Value.exc e.message 0 e.stackTrace) := by
    unfold withException
    rw [hexc]
    exact Doc.get?_insert_self _ _ _
  by_cases hcond : DEFAULT_PROPERTIES.length ≠ r.dictLen
  · rw [if_pos hcond, Doc.get?_foldl_insert_not_mem]
    · exact hstep
    · intro hmem
      rcases List.mem_map.mp hmem with ⟨kv, hkv, hfst⟩
      exact hne (List.mem_map.mpr ⟨kv, (List.mem_filter.mp hkv).1, hfst⟩)
  · rw [if_neg hcond]
    exact hstep

/-- Witness for amended C6 at the concrete record `cRecWithExc`. -/
theorem format_exception_object_witness :
    cRecWithExc.exc_info = some ⟨"exc1", "tb"⟩ ∧
    "exception" ∉ cRecWithExc.extras.map Prod.fst ∧
    Doc.get? (MongoFormatter.format 0 cRecWithExc) "exception" =
      some (Value.exc "exc1" 0 "tb") :=
  ⟨rfl, by decide,
    format_exception_object 0 cRecWithExc ⟨"exc1", "tb"⟩ rfl (by decide)⟩

/-! ### Flush / emit failure claims

The formatter stores the record's level name under the document key
`level`, but the fallback branch of `flush_to_mongo` reads
`msg['levelname']`.  A formatted document has no `levelname` key, so the
first per-item failure raises `KeyError('levelname')` inside the `except`
clause: nothing is reported, the remaining documents are never attempted,
`empty_buffer` is skipped, and the exception propagates out of
`flush_to_mongo` (and hence out of `emit`/`destroy`). -/

/-- C1: evaluation at the failing input.  The buffered ERROR document (a
non-DEBUG document, whose level lives under the key `level` and which has
no `levelname` key) hits a bulk failure and a per-item failure; instead of
the claimed diagnostic report, the flush raises `KeyError('levelname')`
and reports nothing. -/
theorem flush_fallback_raises_instead_of_reporting :
    Doc.get? (MongoFormatter.format 0 cRecError) "level" =
      some (Value.str "ERROR") ∧
    Doc.get? (MongoFormatter.format 0 cRecError) "levelname" = none ∧
    (flush_to_mongo failStorage sOneBuffered).raised =
      some (PyExn.keyError "levelname") ∧
    (flush_to_mongo failStorage sOneBuffered).reported = [] :=
  ⟨rfl, rfl, rfl, rfl⟩

/-- C2: evaluation at the failing input.  When the bulk write and the
per-item fallback write both fail, the `KeyError('levelname')` raised in
the fallback's report-suppression check skips `empty_buffer`, so the
buffer is NOT replaced by an empty sequence: the failed document is still
buffered when the flush aborts. -/
theorem flush_failure_leaves_buffer :
    (flush_to_mongo failStorage sOneBuffered).state.buffer =
      [MongoFormatter.format 0 cRecError] ∧
    (flush_to_mongo failStorage sOneBuffered).raised ≠ none :=
  ⟨rfl, by decide⟩

/-- C3: evaluation at the failing input.  An `emit` that fills the buffer
to capacity triggers a flush; with storage on which both insert operations
fail, the flush's `KeyError('levelname')` propagates out of `emit` to the
caller, contrary to the claimed no-propagation policy. -/
theorem emit_lets_keyError_escape :
    (BufferedMongoHandler.emit failStorage sCapOne 0 cRecError).raised =
      some (PyExn.keyError "levelname") :=
  rfl

/-- The unbuffered `MongoHandler.emit` does satisfy the no-propagation
policy: every insert failure is caught, so no exception reaches the
caller (the bug of C3 is confined to the buffered fallback path). -/
theorem mongoHandler_emit_never_propagates (st : Storage) (s : MState)
    (now : Nat) (r : LogRecord) :
    (MongoHandler.emit st s now r).raised = none := by
  unfold MongoHandler.emit
  cases s.collection with
  | none => rfl
  | some u =>
    dsimp only
    split <;> rfl

/-! ### Trigger claims -/

/-- C8: for every buffered-handler state, emitting a record whose level is
at or above `buffer_early_flush_level` invokes `flush_to_mongo` before
`emit` returns — whatever the buffer length and however large
`buffer_size` is. -/
theorem early_flush_level_triggers_flush (st : Storage) (s : BState)
    (now : Nat) (r : LogRecord)
    (hlev : r.levelno ≥ s.buffer_early_flush_level) :
    (BufferedMongoHandler.emit st s now r).flushes = 1 := by
  simp only [BufferedMongoHandler.emit]
  split
  · rfl
  · rename_i hcond
    exact absurd (Or.inr hlev) hcond

/-- A buffered-handler state with a bound collection, an empty buffer and
a large capacity (100), early-flush level CRITICAL (50). -/
def sEmptyBig : BState := { sOneBuffered with buffer := [] }

/-- A CRITICAL-level record. -/
def cRecCritical : LogRecord :=
  { cRecError with levelname := "CRITICAL", levelno := 50 }

/-- Witness for C8: a single CRITICAL record in an empty buffer of
capacity 100 triggers the flush. -/
theorem early_flush_level_triggers_flush_witness :
    cRecCritical.levelno ≥ sEmptyBig.buffer_early_flush_level ∧
    (BufferedMongoHandler.emit okStorage sEmptyBig 0 cRecCritical).flushes
      = 1 :=
  ⟨by decide,
    early_flush_level_triggers_flush okStorage sEmptyBig 0 cRecCritical
      (by decide)⟩

/-! ### Unbound-collection claims -/

/-- One `emit` on a handler whose collection is unbound: the formatted
document is appended, any triggered flush is a no-op, and nothing is
raised. -/
theorem emit_unbound_appends (st : Storage) (s : BState) (now : Nat)
    (r : LogRecord) (hc : s.collection = none) :
    (BufferedMongoHandler.emit st s now r).state.buffer =
      s.buffer ++ [MongoFormatter.format now r] ∧
    (BufferedMongoHandler.emit st s now r).state.collection = none ∧
    (BufferedMongoHandler.emit st s now r).raised = none := by
  simp only [BufferedMongoHandler.emit, flush_to_mongo]
  split
  · simp [hc]
  · simp [hc]

/-- Every `emit` of a sequence on a handler whose collection is unbound
appends one document and nothing ever drains the buffer. -/
theorem emitSeq_unbound_buffer (st : Storage) (now : Nat) :
    ∀ (rs : List LogRecord) (s : BState), s.collection = none →
      (emitSeq st s now rs).state.buffer =
        s.buffer ++ rs.map (MongoFormatter.format now) ∧
      (emitSeq st s now rs).state.collection = none ∧
      (emitSeq st s now rs).raised = none := by
  intro rs
  induction rs with
  | nil => intro s hc; exact ⟨by simp [emitSeq], hc, rfl⟩
  | cons r rest ih =>
    intro s hc
    have he := emit_unbound_appends st s now r hc
    have hrest := ih (BufferedMongoHandler.emit st s now r).state he.2.1
    simp only [emitSeq]
    rw [he.2.2]
    refine ⟨?_, hrest.2.1, hrest.2.2⟩
    rw [hrest.1, he.1]
    simp

/-- C10: for a buffered handler whose collection is unbound, every `emit`
appends the formatted document to the buffer while `flush_to_mongo`
returns without removing anything; hence over any emission sequence the
buffer grows by exactly one document per emit and is never reset. -/
theorem unbound_collection_buffer_grows (st : Storage) (now : Nat)
    (s : BState) (hc : s.collection = none) :
    (∀ r, (BufferedMongoHandler.emit st s now r).state.buffer =
        s.buffer ++ [MongoFormatter.format now r]) ∧
    (flush_to_mongo st s).state.buffer = s.buffer ∧
    ∀ rs, (emitSeq st s now rs).state.buffer.length =
        s.buffer.length + rs.length ∧
      (emitSeq st s now rs).raised = none := by
  refine ⟨fun r => (emit_unbound_appends st s now r hc).1, ?_, fun rs => ?_⟩
  · unfold flush_to_mongo
    rw [if_neg]
    simp [hc]
  · have h := emitSeq_unbound_buffer st now rs s hc
    refine ⟨?_, h.2.2⟩
    rw [h.1]
    simp

/-- A buffered-handler state whose collection is unbound (as after a
silent-fail construction). -/
def sUnbound : BState := { sOneBuffered with collection := none }

/-! ### Flush lemmas for the success paths -/

/-- A flush on an empty buffer is a no-op. -/
theorem flush_empty_buffer (st : Storage) (s : BState) (hb : s.buffer = []) :
    flush_to_mongo st s = ⟨s, [], [], none⟩ := by
  have hcond : ¬(s.collection.isSome = true ∧ 0 < s.buffer.length) := by
    rw [hb]; simp
  unfold flush_to_mongo
  rw [if_neg hcond]

/-- A flush whose bulk `insert_many` succeeds writes the whole buffer and
replaces it by the empty list. -/
theorem flush_bulk_ok (st : Storage) (s : BState)
    (hcol : s.collection = some ()) (hb : s.buffer ≠ [])
    (hok : st.insertManyFails s.buffer = false) :
    flush_to_mongo st s = ⟨{ s with buffer := [] }, s.buffer, [], none⟩ := by
  have hcond : s.collection.isSome = true ∧ 0 < s.buffer.length :=
    ⟨by rw [hcol]; rfl, List.length_pos.mpr hb⟩
  unfold flush_to_mongo
  rw [if_pos hcond, hok]
  simp

/-- An `emit` that neither reaches capacity nor meets the early-flush
level only appends to the buffer. -/
theorem emit_no_trigger (st : Storage) (s : BState) (now : Nat)
    (r : LogRecord)
    (hsize : s.buffer.length + 1 < s.buffer_size)
    (hlev : r.levelno < s.buffer_early_flush_level) :
    BufferedMongoHandler.emit st s now r =
      ⟨{ s with
          buffer := s.buffer ++ [MongoFormatter.format now r]
          last_record := some r }, 0, [], [], none⟩ := by
  simp only [BufferedMongoHandler.emit]
  split
  · rename_i hcond
    rcases hcond with h | h
    · simp only [List.length_append, List.length_cons, List.length_nil] at h
      omega
    · omega
  · rfl

/-- An `emit` that fires a trigger, on storage whose bulk writes succeed,
flushes the appended buffer and leaves it empty. -/
theorem emit_trigger_bulk_ok (st : Storage) (s : BState) (now : Nat)
    (r : LogRecord)
    (hcol : s.collection = some ())
    (htrig : s.buffer.length + 1 ≥ s.buffer_size ∨
      r.levelno ≥ s.buffer_early_flush_level)
    (hok : ∀ docs, st.insertManyFails docs = false) :
    BufferedMongoHandler.emit st s now r =
      ⟨{ s with buffer := [], last_record := some r }, 1,
        s.buffer ++ [MongoFormatter.format now r], [], none⟩ := by
  have hflush := flush_bulk_ok st
    { s with
      buffer := s.buffer ++ [MongoFormatter.format now r]
      last_record := some r }
    hcol (by simp) (hok _)
  have hcond : (s.buffer ++ [MongoFormatter.format now r]).length ≥
      s.buffer_size ∨ r.levelno ≥ s.buffer_early_flush_level := by
    rcases htrig with h | h
    · left
      simp only [List.length_append, List.length_cons, List.length_nil]
      omega
    · right; exact h
  simp only [BufferedMongoHandler.emit]
  rw [if_pos hcond, hflush]

/-! ### Capacity-trigger claim -/

/-- One-step unfolding of `emitSeq` when the first emit raises nothing. -/
theorem emitSeq_cons_ok (st : Storage) (s : BState) (now : Nat)
    (r : LogRecord) (rs : List LogRecord)
    (h : (BufferedMongoHandler.emit st s now r).raised = none) :
    emitSeq st s now (r :: rs) =
      ⟨(emitSeq st (BufferedMongoHandler.emit st s now r).state now rs).state,
        (BufferedMongoHandler.emit st s now r).flushes +
          (emitSeq st (BufferedMongoHandler.emit st s now r).state now
            rs).flushes,
        (BufferedMongoHandler.emit st s now r).written ++
          (emitSeq st (BufferedMongoHandler.emit st s now r).state now
            rs).written,
        (BufferedMongoHandler.emit st s now r).reported ++
          (emitSeq st (BufferedMongoHandler.emit st s now r).state now
            rs).reported,
        (emitSeq st (BufferedMongoHandler.emit st s now r).state now
          rs).raised⟩ := by
  simp only [emitSeq]
  rw [h]

/-- Emitting records that exactly fill the buffer to capacity, all below
the early-flush level, on storage whose bulk writes succeed: by the last
emit exactly one flush has run and the buffer is empty. -/
theorem capacity_reached_single_flush (st : Storage) (now : Nat)
    (hok : ∀ docs, st.insertManyFails docs = false) :
    ∀ (rs : List LogRecord) (s : BState),
      rs ≠ [] →
      s.buffer.length + rs.length = s.buffer_size →
      s.collection = some () →
      (∀ r ∈ rs, r.levelno < s.buffer_early_flush_level) →
      (emitSeq st s now rs).flushes = 1 ∧
      (emitSeq st s now rs).state.buffer = [] ∧
      (emitSeq st s now rs).raised = none := by
  intro rs
  induction rs with
  | nil => intro s hne; exact absurd rfl hne
  | cons r rest ih =>
    intro s _ hlen hcol hlev
    cases rest with
    | nil =>
      have htrig : s.buffer.length + 1 ≥ s.buffer_size ∨
          r.levelno ≥ s.buffer_early_flush_level := by
        left
        simp only [List.length_cons, List.length_nil] at hlen
        omega
      have he := emit_trigger_bulk_ok st s now r hcol htrig hok
      simp only [emitSeq]
      rw [he]
      simp [emitSeq]
    | cons r2 rest2 =>
      have hsize : s.buffer.length + 1 < s.buffer_size := by
        simp only [List.length_cons] at hlen
        omega
      have he := emit_no_trigger st s now r hsize (hlev r (by simp))
      have hrec := ih
        { s with
          buffer := s.buffer ++ [MongoFormatter.format now r]
          last_record := some r }
        (by simp)
        (by simp only [List.length_append, List.length_cons,
              List.length_nil]
            simp only [List.length_cons] at hlen
            omega)
        hcol
        (fun x hx => hlev x (List.mem_cons_of_mem r hx))
      rw [emitSeq_cons_ok st s now r (r2 :: rest2) (by rw [he])]
      rw [he]
      dsimp only
      exact ⟨by rw [hrec.1], hrec.2.1, hrec.2.2⟩

/-- C7: for the buffered handler with a bound collection, capacity `N`,
and an initially empty buffer, emitting `N` records, all below the
early-flush level, with successful bulk storage and no timer involvement,
invokes exactly one flush by the time the Nth emit returns, leaves the
buffer empty immediately after, and raises nothing. -/
theorem capacity_trigger_exactly_one_flush (st : Storage) (now : Nat)
    (records : List LogRecord) (s : BState)
    (hbuf : s.buffer = [])
    (hlen : records.length = s.buffer_size)
    (hpos : 0 < s.buffer_size)
    (hcol : s.collection = some ())
    (hlev : ∀ r ∈ records, r.levelno < s.buffer_early_flush_level)
    (hok : ∀ docs, st.insertManyFails docs = false) :
    (emitSeq st s now records).flushes = 1 ∧
    (emitSeq st s now records).state.buffer = [] ∧
    (emitSeq st s now records).raised = none := by
  apply capacity_reached_single_flush st now hok records s
  · intro h
    rw [h] at hlen
    simp only [List.length_nil] at hlen
    omega
  · rw [hbuf]
    simpa using hlen
  · exact hcol
  · exact hlev

/-- A buffered-handler state with a bound collection, an empty buffer and
capacity 2. -/
def sCapTwo : BState := { sOneBuffered with buffer := [], buffer_size := 2 }

/-- Witness for C7: two ERROR records (below the CRITICAL early-flush
level) into an empty buffer of capacity 2 cause exactly one flush and an
empty buffer. -/
theorem capacity_trigger_witness :
    sCapTwo.buffer = [] ∧
    ([cRecError, cRecError] : List LogRecord).length = sCapTwo.buffer_size ∧
    (emitSeq okStorage sCapTwo 0 [cRecError, cRecError]).flushes = 1 ∧
    (emitSeq okStorage sCapTwo 0 [cRecError, cRecError]).state.buffer = [] :=
  ⟨rfl, rfl,
    (capacity_trigger_exactly_one_flush okStorage 0 [cRecError, cRecError]
      sCapTwo rfl rfl (by decide) rfl (by decide) (fun _ => rfl)).1,
    (capacity_trigger_exactly_one_flush okStorage 0 [cRecError, cRecError]
      sCapTwo rfl rfl (by decide) rfl (by decide) (fun _ => rfl)).2.1⟩

/-! ### Shutdown claim -/

/-- `destroy` on an empty buffer (timer configured): the stop event is
set, the flush is a no-op, and the connection is closed. -/
theorem destroy_empty (st : Storage) (s : BState)
    (ht : s.timer_configured = true) (hb : s.buffer = []) :
    BufferedMongoHandler.destroy st s =
      ⟨{ s with timer_stopped := true, closed := true }, [], [], none⟩ := by
  simp only [BufferedMongoHandler.destroy]
  rw [if_pos ht, flush_empty_buffer st { s with timer_stopped := true } hb]

/-- `destroy` with a bound collection, a non-empty buffer and a
successful bulk write: the stop event is set, the whole buffer is written
once, and the buffer is left empty. -/
theorem destroy_bulk_ok (st : Storage) (s : BState)
    (ht : s.timer_configured = true)
    (hcol : s.collection = some ()) (hb : s.buffer ≠ [])
    (hok : st.insertManyFails s.buffer = false) :
    BufferedMongoHandler.destroy st s =
      ⟨{ s with buffer := [], timer_stopped := true, closed := true },
        s.buffer, [], none⟩ := by
  simp only [BufferedMongoHandler.destroy]
  rw [if_pos ht, flush_bulk_ok st { s with timer_stopped := true } hcol hb hok]

/-- C9: calling `destroy` twice in succession (bound collection, timer
configured, bulk write succeeding) raises no exception on either call and
writes no already-flushed document a second time: the first call leaves
the buffer empty, and the second call sets the stop signal again
harmlessly, finds the empty buffer, and performs no write. -/
theorem destroy_twice_idempotent (st : Storage) (s : BState)
    (hcol : s.collection = some ())
    (htimer : s.timer_configured = true)
    (hok : st.insertManyFails s.buffer = false) :
    (BufferedMongoHandler.destroy st s).raised = none ∧
    (BufferedMongoHandler.destroy st s).state.buffer = [] ∧
    (BufferedMongoHandler.destroy st
        (BufferedMongoHandler.destroy st s).state).raised = none ∧
    (BufferedMongoHandler.destroy st
        (BufferedMongoHandler.destroy st s).state).written = [] ∧
    (BufferedMongoHandler.destroy st
        (BufferedMongoHandler.destroy st s).state).state.timer_stopped
      = true := by
  by_cases hb : s.buffer = []
  · have h1 := destroy_empty st s htimer hb
    rw [h1]
    dsimp only
    rw [destroy_empty st { s with timer_stopped := true, closed := true }
      htimer hb]
    exact ⟨rfl, hb, rfl, rfl, rfl⟩
  · have h1 := destroy_bulk_ok st s htimer hcol hb hok
    rw [h1]
    dsimp only
    rw [destroy_empty st
      { s with buffer := [], timer_stopped := true, closed := true }
      htimer rfl]
    exact ⟨rfl, rfl, rfl, rfl, rfl⟩

/-- Witness for C9 at the concrete state `sOneBuffered` with successful
storage. -/
theorem destroy_twice_idempotent_witness :
    sOneBuffered.collection = some () ∧
    sOneBuffered.timer_configured = true ∧
    okStorage.insertManyFails sOneBuffered.buffer = false ∧
    (BufferedMongoHandler.destroy okStorage sOneBuffered).raised = none ∧
    (BufferedMongoHandler.destroy okStorage
        (BufferedMongoHandler.destroy okStorage sOneBuffered).state).written
      = [] :=
  ⟨rfl, rfl, rfl,
    (destroy_twice_idempotent okStorage sOneBuffered rfl rfl rfl).1,
    (destroy_twice_idempotent okStorage sOneBuffered rfl rfl rfl).2.2.2.1⟩

/-- Witness for C10 at the concrete unbound state `sUnbound`: one emit
grows the buffer from 1 to 2 documents and raises nothing. -/
theorem unbound_collection_buffer_grows_witness :
    sUnbound.collection = none ∧
    (emitSeq okStorage sUnbound 0 [cRecError]).state.buffer.length =
      sUnbound.buffer.length + 1 ∧
    (emitSeq okStorage sUnbound 0 [cRecError]).raised = none :=
  ⟨rfl,
    ((unbound_collection_buffer_grows okStorage 0 sUnbound rfl).2.2
      [cRecError]).1,
    ((unbound_collection_buffer_grows okStorage 0 sUnbound rfl).2.2
      [cRecError]).2⟩

end Log4Mongo
